import Mathlib

/-!
Verification of the subtree-insertion watcher utilities (`utils.js`).

The development is a shallow embedding of the three components of the
library: the subtree-insertion watcher `onNewElement`, the single-element
waiter `waitForElement`, and the visibility oracle
`isElementEffectivelyHidden`.

Host-environment primitives (selector matching, subtree queries, mutation
batch delivery, computed style and geometry queries) are modelled
explicitly.  A DOM node is a tree; element nodes carry a numeric identity
and a selector is modelled, as the spec treats it, as an opaque decidable
predicate over element identities (the host's `Element.matches`).  A
mutation record carries its type flag and the list of added nodes; the host
delivers records in batches.  `MutationObserver.takeRecords` is modelled as
returning the empty pending queue, which is exact whenever the caller's
callback does not itself mutate the observed tree (none of the analysed
scenarios do).
-/

/-- A DOM node: an element node (carrying its identity and children in
document order), a text node, or a comment node. -/
inductive DomNode where
  | element (eid : Nat) (children : List DomNode)
  | textNode (tid : Nat)
  | commentNode (cid : Nat)

/-- The host's node-type test `node.nodeType === Node.ELEMENT_NODE`. -/
def isElementNode : DomNode → Bool
  | .element _ _ => true
  | .textNode _ => false
  | .commentNode _ => false

/-- The host's `node.matches(selector)`: only element nodes can match, and
matching is the opaque per-element predicate `sel`. -/
def nodeMatches (sel : Nat → Bool) : DomNode → Bool
  | .element eid _ => sel eid
  | .textNode _ => false
  | .commentNode _ => false

mutual
/-- All strict descendants of a node, in document (pre-)order. -/
def descendants : DomNode → List DomNode
  | .element _ cs => descendantsOfList cs
  | .textNode _ => []
  | .commentNode _ => []

/-- Each node of the list followed by its descendants, in document order. -/
def descendantsOfList : List DomNode → List DomNode
  | [] => []
  | c :: cs => c :: descendants c ++ descendantsOfList cs
end

/-- The host's `node.querySelectorAll(selector)`: all strict descendants
matching the selector, in document order. -/
def querySelectorAll (sel : Nat → Bool) (n : DomNode) : List DomNode :=
  (descendants n).filter (nodeMatches sel)

/-- The host's `node.querySelector(selector)`: the first strict descendant
matching the selector in document order, if any. -/
def querySelector (sel : Nat → Bool) (n : DomNode) : Option DomNode :=
  (querySelectorAll sel n).head?

/-- One mutation record as delivered by the host: whether its type is
`childList`, and its list of added nodes. -/
structure MutationRecord where
  isChildList : Bool
  addedNodes : List DomNode

/-- The `targetNode` argument of `onNewElement`: either an HTMLElement
(possibly detached from the document, as recorded by `connected`) or some
other JavaScript value, such as a selector string passed by mistake. -/
inductive TargetNode where
  | elem (connected : Bool) (n : DomNode)
  | nonElement

/-- The synchronous outcome of `onNewElement`: the precondition failure
(diagnostic logged, `null` returned, nothing registered), the fast path
(callback fired synchronously once with the found element, `null`
returned, no observer created), or a registered observer being returned. -/
inductive StartResult where
  | invalid
  | immediate (found : DomNode)
  | observing

/-- The elements passed to the callback synchronously during the
`onNewElement` call itself. -/
def startSyncCalls : StartResult → List DomNode
  | .invalid => []
  | .immediate e => [e]
  | .observing => []

/-- The synchronous part of `onNewElement(targetNode, selector, callback,
stopOnFirstFind)` from `utils.js`: the `instanceof HTMLElement` guard, the
`stopOnFirstFind` fast-path subtree query, and otherwise observer
registration. -/
def onNewElement (t : TargetNode) (sel : Nat → Bool) (stopOnFirstFind : Bool) :
    StartResult :=
  match t with
  | .nonElement => .invalid
  | .elem _ n =>
    if stopOnFirstFind then
      match querySelector sel n with
      | some existingElement => .immediate existingElement
      | none => .observing
    else
      .observing

/-- The inner `for (const node of mutation.addedNodes)` loop of the
observer callback in `onNewElement`.  Returns the elements passed to the
callback and whether `observerInstance.disconnect()` was called (which in
the source is always immediately followed by `return`). -/
def processAddedNodes (sel : Nat → Bool) (stopOnFirstFind : Bool) :
    List DomNode → List DomNode × Bool
  | [] => ([], false)
  | node :: rest =>
    if isElementNode node then
      if nodeMatches sel node && stopOnFirstFind then
        ([node], true)
      else
        let selfEmit : List DomNode := if nodeMatches sel node then [node] else []
        if stopOnFirstFind then
          match querySelector sel node with
          | some matchingDescendant => ([matchingDescendant], true)
          | none => processAddedNodes sel stopOnFirstFind rest
        else
          let r := processAddedNodes sel stopOnFirstFind rest
          (selfEmit ++ querySelectorAll sel node ++ r.1, r.2)
    else
      processAddedNodes sel stopOnFirstFind rest

/-- The outer `for (const mutation of mutationsList)` loop of the observer
callback in `onNewElement`, including the trailing
`if (stopOnFirstFind && !observerInstance.takeRecords().length) return;`
check, with `takeRecords()` modelled as empty (the callback performs no
DOM mutation).  Returns the elements passed to the callback during this
delivery and whether the observer disconnected. -/
def processMutations (sel : Nat → Bool) (stopOnFirstFind : Bool) :
    List MutationRecord → List DomNode × Bool
  | [] => ([], false)
  | m :: rest =>
    let st :=
      if m.isChildList && m.addedNodes.length > 0 then
        processAddedNodes sel stopOnFirstFind m.addedNodes
      else
        ([], false)
    if st.2 then
      st
    else if stopOnFirstFind then
      st
    else
      let r := processMutations sel stopOnFirstFind rest
      (st.1 ++ r.1, r.2)

/-- The host's `MutationObserver.disconnect()`: the observation stops.  The
observer state is its connected flag; disconnecting an already
disconnected observer is a no-op. -/
def disconnect (_st : Bool) : Bool := false

/-- One notification delivery to the observer of an active or cancelled
session: if the observer is connected the batch is processed (and the
observer may disconnect itself in `stopOnFirstFind` mode); a disconnected
observer receives nothing. -/
def sessionStep (sel : Nat → Bool) (stopOnFirstFind : Bool) (connected : Bool)
    (batch : List MutationRecord) : List DomNode × Bool :=
  if connected then
    let r := processMutations sel stopOnFirstFind batch
    (r.1, !r.2)
  else
    ([], false)

/-- The whole lifetime of an observer across a sequence of host-delivered
notification batches: the concatenation of all elements passed to the
callback. -/
def runSession (sel : Nat → Bool) (stopOnFirstFind : Bool) (connected : Bool) :
    List (List MutationRecord) → List DomNode
  | [] => []
  | b :: bs =>
    let r := sessionStep sel stopOnFirstFind connected b
    r.1 ++ runSession sel stopOnFirstFind r.2 bs

/-- The synchronous outcome of `waitForElement(selector)` from `utils.js`:
either the promise resolved in the same turn with an element, or an
observer was registered on the document body and the promise is pending. -/
inductive WaitResult where
  | resolvedNow (found : DomNode)
  | pending

/-- The synchronous part of `waitForElement`: if
`document.querySelector(selector)` finds an element now, resolve with it
immediately; otherwise register a mutation observer and leave the promise
pending.  The document is modelled as the root `DomNode` whose strict
descendants are the document's elements. -/
def waitForElement (sel : Nat → Bool) (doc : DomNode) : WaitResult :=
  match querySelector sel doc with
  | some e => .resolvedNow e
  | none => .pending

/-- The observer phase of `waitForElement` across a sequence of
notification batches: the list holds the document state at the delivery of
each successive batch, and at each batch the whole document is re-queried;
the first batch at which the query succeeds resolves the promise with the
found element and disconnects the observer.  Returns the resolution value,
or `none` when the promise never resolves. -/
def waitRun (sel : Nat → Bool) : List DomNode → Option DomNode
  | [] => none
  | doc :: rest =>
    match querySelector sel doc with
    | some e => some e
    | none => waitRun sel rest

/-- The host-provided per-element data read by `isElementEffectivelyHidden`:
connectedness, the rendered box (`offsetWidth`/`offsetHeight`), the
computed style (`display`, `visibility`, and the parsed `opacity`), and
the bounding client rectangle.  Geometry is modelled over the rationals. -/
structure ElemVis where
  isConnected : Bool
  offsetWidth : Nat
  offsetHeight : Nat
  display : String
  visibility : String
  opacity : Rat
  rectWidth : Rat
  rectHeight : Rat
  rectLeft : Rat
  rectTop : Rat

/-- The function `isElementEffectivelyHidden(element)` from `utils.js`,
with the element argument as `Option ElemVis` (`none` for a null/absent
argument) and the viewport dimensions `window.innerWidth` and
`window.innerHeight` passed explicitly. -/
def isElementEffectivelyHidden (element : Option ElemVis)
    (innerWidth innerHeight : Rat) : Bool :=
  match element with
  | none => true
  | some e =>
    if !e.isConnected then
      true
    else if e.offsetWidth == 0 || e.offsetHeight == 0 then
      true
    else if e.display == "none"
        || e.visibility == "hidden"
        || e.visibility == "collapse"
        || decide (e.opacity = 0) then
      true
    else if decide (e.rectWidth = 0)
        || decide (e.rectHeight = 0)
        || decide (e.rectLeft + e.rectWidth ≤ 0)
        || decide (e.rectTop + e.rectHeight ≤ 0)
        || decide (e.rectLeft ≥ innerWidth)
        || decide (e.rectTop ≥ innerHeight) then
      true
    else
      false

/-- Modelled from the spec's words (section 4.3), for comparison with the
source function: hidden exactly when one of the four listed conditions
holds — (1) null/absent or not connected, (2) zero offset width or height,
(3) display none, visibility hidden or collapse, or opacity 0, (4) zero
rectangle width or height, or rectangle entirely outside the viewport on
any side. -/
def specHidden (element : Option ElemVis) (innerWidth innerHeight : Rat) : Bool :=
  match element with
  | none => true
  | some e =>
    !e.isConnected
    || (e.offsetWidth == 0 || e.offsetHeight == 0)
    || (e.display == "none" || e.visibility == "hidden"
        || e.visibility == "collapse" || decide (e.opacity = 0))
    || (decide (e.rectWidth = 0) || decide (e.rectHeight = 0)
        || decide (e.rectLeft + e.rectWidth ≤ 0)
        || decide (e.rectTop + e.rectHeight ≤ 0)
        || decide (e.rectLeft ≥ innerWidth)
        || decide (e.rectTop ≥ innerHeight))

/-- The selector used for concrete scenarios: it matches exactly the
element with identity 1. -/
def selOne : Nat → Bool := fun n => n == 1

/-- The selector of the two-span scenario (the class selector of the two
span elements, identities 10 and 11; the wrapper div, identity 20, does
not match). -/
def selItem : Nat → Bool := fun n => n == 10 || n == 11

/-!  Helper lemmas about the observer callback. -/

/-- In `stopOnFirstFind` mode, the inner loop passes at most one element to
the callback, and whenever it passes one it disconnects the observer. -/
theorem processAddedNodes_stop (sel : Nat → Bool) :
    ∀ ns : List DomNode,
      (processAddedNodes sel true ns).1.length ≤ 1
      ∧ ((processAddedNodes sel true ns).1 ≠ [] →
          (processAddedNodes sel true ns).2 = true)
  | [] => by simp [processAddedNodes]
  | node :: rest => by
    have ih := processAddedNodes_stop sel rest
    simp only [processAddedNodes]
    rcases node with ⟨eid, cs⟩ | tid | cid
    · by_cases hm : nodeMatches sel (.element eid cs) = true
      · simp [hm, isElementNode]
      · simp only [hm, isElementNode, if_true, Bool.false_and, Bool.false_eq_true,
          if_false]
        rcases hq : querySelector sel (.element eid cs) with _ | m
        · simpa [hq] using ih
        · simp [hq]
    · simpa [isElementNode] using ih
    · simpa [isElementNode] using ih

/-- In `stopOnFirstFind` mode the trailing `takeRecords` check makes the
outer loop return after its first record: the whole delivery reduces to
processing the first record alone. -/
theorem processMutations_stop (sel : Nat → Bool) (m : MutationRecord)
    (rest : List MutationRecord) :
    processMutations sel true (m :: rest) =
      (if m.isChildList && m.addedNodes.length > 0 then
        processAddedNodes sel true m.addedNodes
      else
        ([], false)) := by
  simp only [processMutations]
  split <;> simp

/-- In `stopOnFirstFind` mode a delivery passes at most one element to the
callback, and whenever it passes one the observer disconnects. -/
theorem processMutations_stop_spec (sel : Nat → Bool) (ms : List MutationRecord) :
    (processMutations sel true ms).1.length ≤ 1
    ∧ ((processMutations sel true ms).1 ≠ [] →
        (processMutations sel true ms).2 = true) := by
  rcases ms with _ | ⟨m, rest⟩
  · simp [processMutations]
  · rw [processMutations_stop]
    split
    · exact processAddedNodes_stop sel m.addedNodes
    · simp

/-- A disconnected observer never delivers anything again. -/
theorem runSession_disconnected (sel : Nat → Bool) (stopOnFirstFind : Bool) :
    ∀ bs : List (List MutationRecord),
      runSession sel stopOnFirstFind false bs = []
  | [] => rfl
  | b :: bs => by
    simp [runSession, sessionStep, runSession_disconnected sel stopOnFirstFind bs]

/-- Over its whole lifetime, a `stopOnFirstFind` observer passes at most
one element to the callback, whatever the host delivers. -/
theorem runSession_stop_le_one (sel : Nat → Bool) :
    ∀ (bs : List (List MutationRecord)) (c : Bool),
      (runSession sel true c bs).length ≤ 1
  | [], _ => by simp [runSession]
  | b :: bs, c => by
    rcases c with _ | _
    · rw [runSession_disconnected]
      simp
    · have hspec := processMutations_stop_spec sel b
      simp only [runSession, sessionStep, if_pos rfl]
      by_cases hnil : (processMutations sel true b).1 = []
      · simpa [hnil] using runSession_stop_le_one sel bs _
      · rw [hspec.2 hnil]
        simpa [runSession_disconnected] using hspec.1

/-- Closed form of the inner loop when `stopOnFirstFind` is false: every
added element node contributes its self-match (if any) followed by all its
matching descendants, and the observer never disconnects itself. -/
theorem processAddedNodes_free (sel : Nat → Bool) :
    ∀ ns : List DomNode,
      processAddedNodes sel false ns =
        (ns.flatMap fun n =>
          if isElementNode n then
            (if nodeMatches sel n then [n] else []) ++ querySelectorAll sel n
          else
            [], false)
  | [] => by simp [processAddedNodes]
  | node :: rest => by
    have ih := processAddedNodes_free sel rest
    simp only [processAddedNodes, List.flatMap_cons]
    rcases node with ⟨eid, cs⟩ | tid | cid
    · simp [isElementNode, ih]
    · simpa [isElementNode] using ih
    · simpa [isElementNode] using ih

/-- Closed form of a whole delivery when `stopOnFirstFind` is false: the
records are processed in order, each childList record with added nodes
contributing its inner-loop output, and the observer stays connected. -/
theorem processMutations_free (sel : Nat → Bool) :
    ∀ ms : List MutationRecord,
      processMutations sel false ms =
        (ms.flatMap fun m =>
          if m.isChildList && m.addedNodes.length > 0 then
            (processAddedNodes sel false m.addedNodes).1
          else
            [], false)
  | [] => by simp [processMutations]
  | m :: rest => by
    have ih := processMutations_free sel rest
    simp only [processMutations, List.flatMap_cons]
    by_cases hg : (m.isChildList && decide (m.addedNodes.length > 0)) = true
    · rw [if_pos hg, if_pos hg, processAddedNodes_free]
      simp [ih, processAddedNodes_free]
    · rw [if_neg hg, if_neg hg]
      simp [ih]

/-- An element returned by `querySelector` matches the selector and lies in
the queried subtree. -/
theorem querySelector_spec (sel : Nat → Bool) (n e : DomNode)
    (h : querySelector sel n = some e) :
    nodeMatches sel e = true ∧ e ∈ descendants n := by
  have hmem : e ∈ querySelectorAll sel n := List.mem_of_mem_head? h
  rw [querySelectorAll, List.mem_filter] at hmem
  exact ⟨hmem.2, hmem.1⟩

/-- Everything returned by `querySelectorAll` matches the selector and lies
in the queried subtree. -/
theorem querySelectorAll_spec (sel : Nat → Bool) (n d : DomNode)
    (h : d ∈ querySelectorAll sel n) :
    nodeMatches sel d = true ∧ d ∈ descendants n := by
  rw [querySelectorAll, List.mem_filter] at h
  exact ⟨h.2, h.1⟩

/-- A continuous session fed one single-record batch per new matching leaf
element reports exactly those elements, in order. -/
theorem runSession_singletons (sel : Nat → Bool) :
    ∀ es : List Nat, (∀ e ∈ es, sel e = true) →
      runSession sel false true
          (es.map fun e => [MutationRecord.mk true [DomNode.element e []]])
        = es.map fun e => DomNode.element e []
  | [], _ => rfl
  | e :: es, h => by
    have ih := runSession_singletons sel es fun x hx => h x (List.mem_cons_of_mem _ hx)
    have he : sel e = true := h e (List.mem_cons_self _ _)
    simp only [List.map_cons, runSession, sessionStep, if_pos rfl]
    rw [processMutations_free]
    simp [processAddedNodes_free, nodeMatches, isElementNode, he,
      querySelectorAll, descendants, descendantsOfList, ih]

/-!  Claim theorems. -/

/-- C1: for every stopAfterFirst watch session returned by `onNewElement`,
the first callback invocation disconnects the observer within the same
delivery, and over the whole lifetime of the session — all nodes of the
current batch and all subsequent batches — the callback is invoked at most
once. -/
theorem spec_c1 (t : TargetNode) (sel : Nat → Bool)
    (batches : List (List MutationRecord))
    (_h : onNewElement t sel true = .observing) :
    (runSession sel true true batches).length ≤ 1
    ∧ ∀ batch : List MutationRecord,
        (processMutations sel true batch).1 ≠ [] →
        (processMutations sel true batch).2 = true :=
  ⟨runSession_stop_le_one sel batches true,
   fun batch => (processMutations_stop_spec sel batch).2⟩

/-- Witness for C1 at a concrete session: the watch on an empty root
returns an observer, and a delivery inserting a matching element yields at
most one callback. -/
theorem spec_c1_witness :
    onNewElement (.elem true (DomNode.element 0 [])) selOne true = .observing
    ∧ (runSession selOne true true [[⟨true, [DomNode.element 1 []]⟩]]).length ≤ 1 :=
  ⟨rfl, (spec_c1 (.elem true (DomNode.element 0 [])) selOne
      [[⟨true, [DomNode.element 1 []]⟩]] rfl).1⟩

/-- C2, evaluated at the failing input: a stopAfterFirst watch is started
on an empty root (no match exists, an observer is returned); one batch
later delivers two childList records, the first adding a non-matching
element and the second adding the single matching element.  The code
invokes zero callbacks — the trailing takeRecords check returns from the
delivery after the first record, so the matching record is never examined
— whereas the claim promises exactly one invocation however the host
groups records within the batch.  When the matching record is the only one
in the batch, the callback does fire once. -/
theorem spec_c2_eval :
    onNewElement (.elem true (DomNode.element 0 [])) selOne true = .observing
    ∧ runSession selOne true true
        [[⟨true, [DomNode.element 5 []]⟩, ⟨true, [DomNode.element 1 []]⟩]] = []
    ∧ runSession selOne true true [[⟨true, [DomNode.element 1 []]⟩]]
        = [DomNode.element 1 []] :=
  ⟨rfl, rfl, rfl⟩

/-- C3 counterexample: a detached HTMLElement root is not rejected —
`onNewElement` only checks instanceof HTMLElement, never connectedness.
On a detached root with stopAfterFirst the fast path even invokes the
callback, and on a detached empty root an observer is registered, contrary
to the claimed diagnostic-and-null behavior. -/
theorem spec_c3_counterexample :
    onNewElement (.elem false (DomNode.element 0 [DomNode.element 1 []])) selOne true
      = .immediate (DomNode.element 1 [])
    ∧ startSyncCalls
        (onNewElement (.elem false (DomNode.element 0 [DomNode.element 1 []])) selOne true)
      = [DomNode.element 1 []]
    ∧ onNewElement (.elem false (DomNode.element 0 [])) selOne false
        ≠ .invalid :=
  ⟨rfl, rfl, nofun⟩

/-- C3 amended: only a rootNode that is not an HTMLElement at all is
rejected — the operation emits a diagnostic, registers no observer,
invokes no callback and returns null; connectedness is not checked, so a
detached element node is treated as a valid root. -/
theorem spec_c3_amended (sel : Nat → Bool) (stopOnFirstFind : Bool) :
    onNewElement .nonElement sel stopOnFirstFind = .invalid
    ∧ startSyncCalls (onNewElement .nonElement sel stopOnFirstFind) = [] :=
  ⟨rfl, rfl⟩

/-- C4: a stopAfterFirst call on an HTMLElement root under which some
element already matches invokes the callback synchronously exactly once
with the element found by the single subtree query, creates no observer
and returns null (the `immediate` outcome), and that element matches the
selector. -/
theorem spec_c4 (connected : Bool) (root : DomNode) (sel : Nat → Bool)
    (e : DomNode) (h : querySelector sel root = some e) :
    onNewElement (.elem connected root) sel true = .immediate e
    ∧ startSyncCalls (onNewElement (.elem connected root) sel true) = [e]
    ∧ nodeMatches sel e = true := by
  have hm := querySelector_spec sel root e h
  refine ⟨?_, ?_, hm.1⟩ <;> simp [onNewElement, h, startSyncCalls]

/-- Witness for C4 at a concrete root containing one matching element. -/
theorem spec_c4_witness :
    querySelector selOne (DomNode.element 0 [DomNode.element 1 []])
      = some (DomNode.element 1 [])
    ∧ onNewElement (.elem true (DomNode.element 0 [DomNode.element 1 []])) selOne true
      = .immediate (DomNode.element 1 []) :=
  ⟨rfl, (spec_c4 true (DomNode.element 0 [DomNode.element 1 []]) selOne
      (DomNode.element 1 []) rfl).1⟩

/-- Dropping an all-miss prefix of the observer phase of `waitForElement`:
batches at which the document query fails leave the promise pending. -/
theorem waitRun_skip (sel : Nat → Bool) :
    ∀ (pre rest : List DomNode), (∀ d ∈ pre, querySelector sel d = none) →
      waitRun sel (pre ++ rest) = waitRun sel rest
  | [], _, _ => rfl
  | p :: ps, rest, h => by
    have hp := h p (List.mem_cons_self _ _)
    simp only [List.cons_append, waitRun, hp]
    exact waitRun_skip sel ps rest fun x hx => h x (List.mem_cons_of_mem _ hx)

/-- C5: in continuous mode every notification batch yields one callback
per match — each added element node matching the selector is reported, and
every matching descendant of every added element node is reported; N
single-match insertion batches yield exactly N callbacks; and the concrete
two-span scenario (a wrapper div with two distinct matching spans inserted
under an empty root as one batch) yields exactly the two distinct matching
elements. -/
theorem spec_c5 (sel : Nat → Bool) (ms : List MutationRecord)
    (m : MutationRecord) (n : DomNode)
    (hm : m ∈ ms) (hcl : m.isChildList = true) (hn : n ∈ m.addedNodes)
    (he : isElementNode n = true) :
    (nodeMatches sel n = true → n ∈ (processMutations sel false ms).1)
    ∧ (∀ d ∈ querySelectorAll sel n, d ∈ (processMutations sel false ms).1)
    ∧ (∀ es : List Nat, (∀ e ∈ es, sel e = true) →
        runSession sel false true
            (es.map fun e => [MutationRecord.mk true [DomNode.element e []]])
          = es.map fun e => DomNode.element e [])
    ∧ runSession selItem false true
        [[⟨true, [DomNode.element 20 [DomNode.element 10 [], DomNode.element 11 []]]⟩]]
        = [DomNode.element 10 [], DomNode.element 11 []]
    ∧ DomNode.element 10 [] ≠ DomNode.element 11 []
    ∧ selItem 10 = true ∧ selItem 11 = true := by
  have hlen : 0 < m.addedNodes.length :=
    List.length_pos.mpr (List.ne_nil_of_mem hn)
  have hmem : ∀ x : DomNode,
      x ∈ (if nodeMatches sel n then [n] else []) ++ querySelectorAll sel n →
      x ∈ (processMutations sel false ms).1 := by
    intro x hx
    rw [processMutations_free]
    refine List.mem_flatMap.mpr ⟨m, hm, ?_⟩
    rw [if_pos (by simp [hcl, hlen]), processAddedNodes_free]
    exact List.mem_flatMap.mpr ⟨n, hn, by rw [if_pos he]; exact hx⟩
  refine ⟨?_, ?_, runSession_singletons sel, by rfl, by simp, rfl, rfl⟩
  · intro hmatch
    exact hmem n (by simp [hmatch])
  · intro d hd
    exact hmem d (List.mem_append_right _ hd)

/-- Witness for C5 at a concrete batch: one childList record adds a
non-matching element whose single descendant matches, and that descendant
is reported. -/
theorem spec_c5_witness :
    (⟨true, [DomNode.element 99 [DomNode.element 1 []]]⟩ : MutationRecord)
        ∈ [(⟨true, [DomNode.element 99 [DomNode.element 1 []]]⟩ : MutationRecord)]
    ∧ DomNode.element 1 []
        ∈ (processMutations selOne false
            [⟨true, [DomNode.element 99 [DomNode.element 1 []]]⟩]).1 := by
  refine ⟨List.mem_singleton.mpr rfl, ?_⟩
  exact (spec_c5 selOne [⟨true, [DomNode.element 99 [DomNode.element 1 []]]⟩]
      ⟨true, [DomNode.element 99 [DomNode.element 1 []]]⟩
      (DomNode.element 99 [DomNode.element 1 []])
      (List.mem_singleton.mpr rfl) rfl (List.mem_singleton.mpr rfl) rfl).2.1
      (DomNode.element 1 []) (List.mem_singleton.mpr rfl)

/-- C6: after cancelling a session (disconnecting its observer) no
callback ever fires again, whatever matching insertions the host delivers
afterwards, and disconnecting a second time is a no-op. -/
theorem spec_c6 (sel : Nat → Bool) (stopOnFirstFind : Bool) (st : Bool)
    (batches : List (List MutationRecord)) :
    runSession sel stopOnFirstFind (disconnect st) batches = []
    ∧ disconnect (disconnect st) = disconnect st :=
  ⟨runSession_disconnected sel stopOnFirstFind batches, rfl⟩

/-- C7: `waitForElement` resolves in the same synchronous turn with a
matching element when the document already has a match; otherwise it goes
pending with an observer registered, each batch re-queries the whole
document, the first batch after which a match exists resolves the promise
exactly once with a matching element, and a document in which no match
ever appears leaves the promise unresolved forever. -/
theorem spec_c7 (sel : Nat → Bool) :
    (∀ doc e, querySelector sel doc = some e →
        waitForElement sel doc = .resolvedNow e ∧ nodeMatches sel e = true)
    ∧ (∀ doc, querySelector sel doc = none → waitForElement sel doc = .pending)
    ∧ (∀ docs : List DomNode, (∀ d ∈ docs, querySelector sel d = none) →
        waitRun sel docs = none)
    ∧ (∀ (pre : List DomNode) (doc : DomNode) (post : List DomNode) (e : DomNode),
        (∀ d ∈ pre, querySelector sel d = none) →
        querySelector sel doc = some e →
        waitRun sel (pre ++ doc :: post) = some e ∧ nodeMatches sel e = true) := by
  refine ⟨?_, ?_, ?_, ?_⟩
  · intro doc e h
    exact ⟨by simp [waitForElement, h], (querySelector_spec sel doc e h).1⟩
  · intro doc h
    simp [waitForElement, h]
  · intro docs h
    have := waitRun_skip sel docs [] h
    simpa using this
  · intro pre doc post e hpre h
    rw [waitRun_skip sel pre (doc :: post) hpre]
    exact ⟨by simp [waitRun, h], (querySelector_spec sel doc e h).1⟩

/-- Witness for C7 at concrete documents: immediate resolution on a
document with a match, and resolution at the second batch when the first
batch's document has none. -/
theorem spec_c7_witness :
    querySelector selOne (DomNode.element 0 [DomNode.element 1 []])
        = some (DomNode.element 1 [])
    ∧ waitForElement selOne (DomNode.element 0 [DomNode.element 1 []])
        = .resolvedNow (DomNode.element 1 [])
    ∧ waitRun selOne [DomNode.element 0 [], DomNode.element 0 [DomNode.element 1 []]]
        = some (DomNode.element 1 []) := by
  refine ⟨rfl, ((spec_c7 selOne).1 (DomNode.element 0 [DomNode.element 1 []])
      (DomNode.element 1 []) rfl).1, ?_⟩
  exact ((spec_c7 selOne).2.2.2 [DomNode.element 0 []]
      (DomNode.element 0 [DomNode.element 1 []]) [] (DomNode.element 1 [])
      (fun d hd => by rw [List.mem_singleton.mp hd]; rfl) rfl).1

/-- A detached but otherwise fully visible element. -/
def detachedElem : ElemVis :=
  ⟨false, 100, 100, "block", "visible", 1, 100, 100, 10, 10⟩

/-- A connected element with computed display none (offset box kept
nonzero so that the style condition alone decides). -/
def displayNoneElem : ElemVis :=
  ⟨true, 100, 100, "none", "visible", 1, 100, 100, 10, 10⟩

/-- A connected element whose rectangle lies entirely above the viewport:
top -200 plus height 100 is at most 0. -/
def aboveViewportElem : ElemVis :=
  ⟨true, 100, 100, "block", "visible", 1, 100, 100, 10, -200⟩

/-- A fully visible 100 by 100 element inside the viewport with default
style. -/
def visibleElem : ElemVis :=
  ⟨true, 100, 100, "block", "visible", 1, 100, 100, 10, 10⟩

/-- C8: `isElementEffectivelyHidden` returns true exactly when one of the
four spec conditions holds and false otherwise; in particular it is true
for a null argument, a detached node, a display-none node and a node whose
rectangle lies entirely above the viewport, and false for a fully visible
100 by 100 node inside a 1000 by 800 viewport with default style. -/
theorem spec_c8 (element : Option ElemVis) (innerWidth innerHeight : Rat) :
    isElementEffectivelyHidden element innerWidth innerHeight
      = specHidden element innerWidth innerHeight
    ∧ isElementEffectivelyHidden none 1000 800 = true
    ∧ isElementEffectivelyHidden (some detachedElem) 1000 800 = true
    ∧ isElementEffectivelyHidden (some displayNoneElem) 1000 800 = true
    ∧ isElementEffectivelyHidden (some aboveViewportElem) 1000 800 = true
    ∧ isElementEffectivelyHidden (some visibleElem) 1000 800 = false := by
  refine ⟨?_, rfl, ?_, ?_, ?_, ?_⟩
  · rcases element with _ | e
    · rfl
    · simp only [isElementEffectivelyHidden, specHidden]
      split_ifs with h1 h2 h3 h4 <;> simp_all
  · norm_num [isElementEffectivelyHidden, detachedElem]
  · norm_num [isElementEffectivelyHidden, displayNoneElem]
  · norm_num [isElementEffectivelyHidden, aboveViewportElem]
  · norm_num [isElementEffectivelyHidden, visibleElem]
    decide

/-- C9: in continuous mode `onNewElement` performs no synchronous callback
for elements already present at call time (no call-time subtree query in
that branch), and every element a delivery reports originates from the
batch itself — it is an added node of a childList record or a descendant
of one. -/
theorem spec_c9 (t : TargetNode) (sel : Nat → Bool) :
    startSyncCalls (onNewElement t sel false) = []
    ∧ ∀ (ms : List MutationRecord) (x : DomNode),
        x ∈ (processMutations sel false ms).1 →
        ∃ m ∈ ms, m.isChildList = true
          ∧ ∃ n ∈ m.addedNodes, x = n ∨ x ∈ descendants n := by
  constructor
  · rcases t with ⟨c, n⟩ | _ <;> rfl
  · intro ms x hx
    rw [processMutations_free] at hx
    obtain ⟨m, hm, hxm⟩ := List.mem_flatMap.mp hx
    by_cases hg : (m.isChildList && decide (m.addedNodes.length > 0)) = true
    · rw [if_pos hg, processAddedNodes_free] at hxm
      obtain ⟨n, hn, hxn⟩ := List.mem_flatMap.mp hxm
      have hcl : m.isChildList = true := by
        rcases hb : m.isChildList
        · rw [hb] at hg
          simp at hg
        · rfl
      refine ⟨m, hm, hcl, n, hn, ?_⟩
      by_cases he : isElementNode n = true
      · rw [if_pos he] at hxn
        rcases List.mem_append.mp hxn with hself | hdesc
        · cases hnm : nodeMatches sel n <;> rw [hnm] at hself
          · simp at hself
          · exact Or.inl (List.mem_singleton.mp hself)
        · exact Or.inr (querySelectorAll_spec sel n x hdesc).2
      · rw [if_neg he] at hxn
        simp at hxn
    · rw [if_neg hg] at hxm
      simp at hxm

/-- Witness for C9 at a concrete delivery: the reported element of a
single-record batch is traced back to that record's added node. -/
theorem spec_c9_witness :
    DomNode.element 1 []
        ∈ (processMutations selOne false [⟨true, [DomNode.element 1 []]⟩]).1
    ∧ ∃ m ∈ [(⟨true, [DomNode.element 1 []]⟩ : MutationRecord)],
        m.isChildList = true
        ∧ ∃ n ∈ m.addedNodes,
            DomNode.element 1 [] = n ∨ DomNode.element 1 [] ∈ descendants n := by
  have hmem : DomNode.element 1 []
      ∈ (processMutations selOne false [⟨true, [DomNode.element 1 []]⟩]).1 :=
    List.mem_singleton.mpr rfl
  exact ⟨hmem, (spec_c9 (TargetNode.elem true (DomNode.element 0 [])) selOne).2
      [⟨true, [DomNode.element 1 []]⟩] (DomNode.element 1 []) hmem⟩

/-- C10: added nodes that are not element nodes are skipped entirely in
both modes — the inner loop behaves as if they were filtered out of the
batch, and a batch of only text and comment nodes yields no callback and
no disconnection. -/
theorem spec_c10 (sel : Nat → Bool) (stopOnFirstFind : Bool) :
    (∀ ns : List DomNode,
        processAddedNodes sel stopOnFirstFind ns
          = processAddedNodes sel stopOnFirstFind (ns.filter isElementNode))
    ∧ processAddedNodes sel stopOnFirstFind
        [DomNode.textNode 0, DomNode.commentNode 1] = ([], false) := by
  constructor
  · intro ns
    induction ns with
    | nil => rfl
    | cons node rest ih =>
      rcases node with ⟨eid, cs⟩ | tid | cid
      · rw [List.filter_cons_of_pos (by rfl)]
        simp only [processAddedNodes]
        rw [ih]
      · rw [List.filter_cons_of_neg (by simp [isElementNode])]
        simpa [processAddedNodes, isElementNode] using ih
      · rw [List.filter_cons_of_neg (by simp [isElementNode])]
        simpa [processAddedNodes, isElementNode] using ih
  · rfl
